import Mathlib

/-!
Verification development for the Slippi matchmaking session engine
(`slippi-rust-extensions`): a shallow embedding of the netplay crate's
matchmaking state machine, ticket protocol decoding, match-context
construction and cross-thread handoff cells, with theorems checking the
specification's testable properties against the embedded code.

Sources embedded:
  - `netplay/src/state.rs` (`NetplayState`)
  - `netplay/src/context.rs` (`MatchContext`, `Player`, `PlayerRank`, `Stage`)
  - `netplay/src/matchmaking.rs` (`run`, `receive`, `check_ticket`, the error
    enums and the error-message mappings)
  - `netplay/src/lib.rs` (`NetplayManager::find_match`, `remote_player_count`)
  - `shared-types/src/lib.rs` (`OnceValue::set`)
-/

namespace Slippi

/-- `NetplayState` from `netplay/src/state.rs`. -/
inductive NetplayState
  | Idle
  | Initializing
  | Matchmaking
  | OpponentConnecting
  | ConnectionSuccess
  | ErrorEncountered
deriving DecidableEq, Repr

/-- `Stage` from `netplay/src/context.rs`: closed enumeration of legal stages. -/
inductive Stage
  | PokemonStadium
  | YoshisStory
  | Dreamland
  | Battlefield
  | FinalDestination
  | FountainOfDreams
deriving DecidableEq, Repr

/-- `Stage::to_u16` from `netplay/src/context.rs`. -/
def Stage.to_u16 : Stage → Nat
  | .PokemonStadium => 0x3
  | .YoshisStory => 0x8
  | .Dreamland => 0x1C
  | .Battlefield => 0x1F
  | .FinalDestination => 0x20
  | .FountainOfDreams => 0x2

/-- `Stage::from` from `netplay/src/context.rs` (`from` is a reserved word in
Lean, hence the name `fromU16`). Unknown 16-bit ids map to `none`. -/
def Stage.fromU16 (val : Nat) : Option Stage :=
  if val = 0x3 then some .PokemonStadium
  else if val = 0x8 then some .YoshisStory
  else if val = 0x1C then some .Dreamland
  else if val = 0x1F then some .Battlefield
  else if val = 0x20 then some .FinalDestination
  else if val = 0x2 then some .FountainOfDreams
  else none

/-- An IPv4 address as four octets. -/
structure Ipv4Addr where
  a : Nat
  b : Nat
  c : Nat
  d : Nat
deriving DecidableEq, Repr

/-- `std::net::SocketAddr`, specialized to IPv4 (the form the matchmaking
server hands out and the only form the tests exercise). -/
structure SocketAddr where
  ip : Ipv4Addr
  port : Nat
deriving DecidableEq, Repr

/-- Decimal digit value of a character, or `none`. -/
def digitVal (c : Char) : Option Nat :=
  let n := c.toNat
  if 48 ≤ n ∧ n ≤ 57 then some (n - 48) else none

/-- Accumulating decimal parser over a character list; fails on any
non-digit character. -/
def parseNatAux : List Char → Nat → Option Nat
  | [], acc => some acc
  | c :: cs, acc =>
    match digitVal c with
    | some d => parseNatAux cs (acc * 10 + d)
    | none => none

/-- Parse a non-empty all-digit character list as a natural number. -/
def parseNatCS (cs : List Char) : Option Nat :=
  match cs with
  | [] => none
  | _ => parseNatAux cs 0

/-- Split a character list on a separator character (groups may be empty). -/
def splitOnChar (sep : Char) : List Char → List (List Char)
  | [] => [[]]
  | c :: cs =>
    if c = sep then [] :: splitOnChar sep cs
    else
      match splitOnChar sep cs with
      | [] => [[c]]
      | g :: gs => (c :: g) :: gs

/-- One IPv4 octet: digits only, value at most 255, no leading zero. -/
def parseOctet (cs : List Char) : Option Nat :=
  match parseNatCS cs with
  | some n =>
    if n ≤ 255 ∧ (cs.length = 1 ∨ cs.headD ' ' ≠ '0') then some n else none
  | none => none

/-- A port number: digits only, value at most 65535. -/
def parsePort (cs : List Char) : Option Nat :=
  match parseNatCS cs with
  | some n => if n ≤ 65535 then some n else none
  | none => none

/-- Models the standard library's `"a.b.c.d:port".parse::<SocketAddr>()` for
IPv4 socket addresses (the external `std::net` parser used by
`check_ticket`); malformed input yields `none`, which the embedded code
turns into `InvalidAddr`. -/
def parseSocketAddr (s : String) : Option SocketAddr :=
  match splitOnChar ':' s.toList with
  | [ipCs, portCs] =>
    match splitOnChar '.' ipCs with
    | [oa, ob, oc, od] =>
      match parseOctet oa, parseOctet ob, parseOctet oc, parseOctet od, parsePort portCs with
      | some na, some nb, some nc, some nd, some np => some ⟨⟨na, nb, nc, nd⟩, np⟩
      | _, _, _, _, _ => none
    | _ => none
  | _ => none

/-- Does `l` start with `pat`? -/
def listStartsWith : List Char → List Char → Bool
  | _, [] => true
  | [], _ :: _ => false
  | c :: cs, d :: ds => c = d && listStartsWith cs ds

/-- Does `l` contain `pat` as a contiguous run? -/
def listContainsSub : List Char → List Char → Bool
  | [], pat => pat.isEmpty
  | c :: rest, pat => listStartsWith (c :: rest) pat || listContainsSub rest pat

/-- Models Rust's `str::contains` for plain string patterns (used by `run`
to detect ranked-mode match ids). -/
def strContainsSub (s pat : String) : Bool :=
  listContainsSub s.toList pat.toList

/-- `PlayerRank` from `netplay/src/context.rs`. The source's `rating` field is
an `f32` that `check_ticket` only ever copies, never inspects; it is carried
here as its raw bit pattern so the structure stays decidable. -/
structure PlayerRank where
  rating : Nat
  global_placing : Nat
  regional_placing : Nat
  rating_update_count : Nat
deriving DecidableEq, Repr

/-- `Player` from `netplay/src/context.rs`. -/
structure Player where
  uid : String
  display_name : String
  connect_code : String
  chat_messages : List String
  rank : PlayerRank
  is_bot : Bool
  port : Nat
deriving DecidableEq, Repr

/-- `MatchContext` from `netplay/src/context.rs`. -/
structure MatchContext where
  id : String
  local_player_index : Nat
  players : List Player
  stages : List Stage
  remote_addrs : List SocketAddr
  is_host : Bool
deriving DecidableEq, Repr

/-- `MatchContext::default()` (all fields `Default`). -/
def MatchContext.default : MatchContext :=
  { id := ""
    local_player_index := 0
    players := []
    stages := []
    remote_addrs := []
    is_host := false }

/-- Wire-format `PlayerInfo` from `netplay/src/matchmaking.rs`. -/
structure PlayerInfo where
  is_local : Bool
  uid : String
  display_name : String
  connect_code : String
  port : Nat
  ip_address : String
  ip_address_lan : Option String
  is_bot : Bool
  chat_messages : List String
  rank : PlayerRank
deriving DecidableEq, Repr

/-- Wire-format `TicketResponse` from `netplay/src/matchmaking.rs`. -/
structure TicketResponse where
  kind : String
  latest_version : String
  match_id : String
  error : Option String
  players : List PlayerInfo
  stages : List Nat
  is_host : Bool
deriving DecidableEq, Repr

/-- Wire discriminator constant from `netplay/src/matchmaking.rs`. -/
def CREATE_TICKET : String := "create-ticket"

/-- Wire discriminator constant from `netplay/src/matchmaking.rs`. -/
def CREATE_TICKET_RESP : String := "create-ticket-resp"

/-- Wire discriminator constant from `netplay/src/matchmaking.rs`. -/
def GET_TICKET_RESP : String := "get-ticket-resp"

/-- `ReceiveError` from `netplay/src/matchmaking.rs` (payloads of the
transparent variants elided). -/
inductive ReceiveError
  | HostRead
  | Deserialize
  | Disconnect
  | Timeout
  | Utf8Read
deriving DecidableEq, Repr

/-- `CheckTicketError` from `netplay/src/matchmaking.rs` (the
`AddrParseError` payload of `InvalidAddr` is elided). -/
inductive CheckTicketError
  | Receive (e : ReceiveError)
  | InvalidResponse (kind : String)
  | Server (msg : String)
  | InvalidAddr
deriving DecidableEq, Repr

/-- Modelled from the spec: `slippi_user::chat::default()` (the `slippi-user`
crate is not among the sources). The spec fixes only its shape - a 16-slot
chat-message palette used whenever the server-provided list has a different
length - so it is modelled as 16 blank entries; no claim depends on the
entries' text. -/
def chatDefault : List String := List.replicate 16 ""

/-- The per-player conversion done inside `check_ticket`'s first loop:
normalize the chat palette to the 16-slot default when the length differs,
then build the `Player` record pushed into `context.players`. -/
def playerOfInfo (p : PlayerInfo) : Player :=
  { uid := p.uid
    display_name := p.display_name
    connect_code := p.connect_code
    chat_messages := if p.chat_messages.length ≠ 16 then chatDefault else p.chat_messages
    rank := p.rank
    is_bot := p.is_bot
    port := p.port }

/-- Failure modes internal to `check_ticket`'s player loops: an address parse
failure (surfaced as `InvalidAddr`), or the unchecked `usize` subtraction
`player.port - 1` underflowing at `port = 0` (a panic in the source; embedded
as an explicit branch). -/
inductive BuildErr
  | invalidAddr
  | underflow
deriving DecidableEq, Repr

/-- Decidable equality on `Except` results, for evaluating the embedded
pass functions at concrete payloads. -/
instance {α β : Type} [DecidableEq α] [DecidableEq β] : DecidableEq (Except α β) := fun x y =>
  match x, y with
  | .ok a, .ok b =>
    if h : a = b then .isTrue (by rw [h]) else .isFalse (by intro hc; cases hc; exact h rfl)
  | .error a, .error b =>
    if h : a = b then .isTrue (by rw [h]) else .isFalse (by intro hc; cases hc; exact h rfl)
  | .ok _, .error _ => .isFalse (by intro hc; cases hc)
  | .error _, .ok _ => .isFalse (by intro hc; cases hc)

/-- State threaded through `check_ticket`'s first player loop. -/
structure FirstPassState where
  local_external_ip : SocketAddr
  local_player_index : Nat
  players : List Player
deriving DecidableEq, Repr

/-- `check_ticket`'s first loop (`matchmaking.rs` lines 610-630): record the
local player's external address and 0-based index, normalize chat palettes,
and accumulate the `Player` list in order. -/
def firstPass : FirstPassState → List PlayerInfo → Except BuildErr FirstPassState
  | st, [] => .ok st
  | st, p :: rest =>
    if p.is_local then
      match parseSocketAddr p.ip_address with
      | none => .error .invalidAddr
      | some a =>
        if p.port = 0 then .error .underflow
        else firstPass ⟨a, p.port - 1, st.players ++ [playerOfInfo p]⟩ rest
    else
      firstPass ⟨st.local_external_ip, st.local_player_index, st.players ++ [playerOfInfo p]⟩ rest

/-- `check_ticket`'s second loop (`matchmaking.rs` lines 637-666): skip the
seat matching `local_player_index`; for each other player parse the external
address, keep it when its IP differs from the local external IP or no LAN
address exists, otherwise parse and keep the LAN address. Parse failures are
fatal (`invalidAddr`); `port = 0` underflows the skip-test subtraction. -/
def secondPass (local_index : Nat) (local_ip : Ipv4Addr) : List PlayerInfo → Except BuildErr (List SocketAddr)
  | [] => .ok []
  | p :: rest =>
    if p.port = 0 then .error .underflow
    else if p.port - 1 = local_index then secondPass local_index local_ip rest
    else
      match parseSocketAddr p.ip_address with
      | none => .error .invalidAddr
      | some addr =>
        if addr.ip ≠ local_ip ∨ p.ip_address_lan = none then
          match secondPass local_index local_ip rest with
          | .ok addrs => .ok (addr :: addrs)
          | .error e => .error e
        else
          match p.ip_address_lan with
          | some lan =>
            match parseSocketAddr lan with
            | none => .error .invalidAddr
            | some lanAddr =>
              match secondPass local_index local_ip rest with
              | .ok addrs => .ok (lanAddr :: addrs)
              | .error e => .error e
          | none => secondPass local_index local_ip rest

/-- `check_ticket`'s stage loop (`matchmaking.rs` lines 668-674): map each
numeric id through the `Stage` table, dropping unknown ids (with a warning in
the source) rather than failing. -/
def mapStages (stages : List Nat) : List Stage :=
  stages.filterMap Stage.fromU16

/-- `check_ticket`'s default-stage fallback (`matchmaking.rs` lines 676-690):
an empty mapped list is replaced by the five-stage default, with
`FountainOfDreams` appended when exactly two players are present. -/
def applyStageDefaults (players_len : Nat) (stages : List Stage) : List Stage :=
  if stages.isEmpty then
    let base : List Stage :=
      [.PokemonStadium, .YoshisStory, .Dreamland, .Battlefield, .FinalDestination]
    if players_len = 2 then base ++ [.FountainOfDreams] else base
  else stages

/-- Outcome of `check_ticket`: `Ok(None)` (no assignment yet),
`Ok(Some(context))`, an error, or the `usize` underflow panic. -/
inductive CheckOutcome
  | ok (ctx : Option MatchContext)
  | err (e : CheckTicketError)
  | underflow
deriving DecidableEq, Repr

/-- Is this outcome a failure of the assignment-processing operation? -/
def CheckOutcome.isFailure : CheckOutcome → Bool
  | .ok _ => false
  | .err _ => true
  | .underflow => true

/-- Result of one `check_ticket` call: its outcome plus the version string
passed to `user_manager.overwrite_latest_version`, when that side effect
fires (the identity manager lives outside this crate, so the side effect is
returned explicitly). -/
structure CheckTicketResult where
  outcome : CheckOutcome
  reportedVersion : Option String
deriving DecidableEq, Repr

/-- The placeholder local external address `([0; 4], 0).into()` from
`matchmaking.rs` line 608. -/
def defaultExternalIp : SocketAddr := ⟨⟨0, 0, 0, 0⟩, 0⟩

/-- The assignment-to-`MatchContext` transformation inside `check_ticket`
(`matchmaking.rs` lines 601-692): both player passes, the stage mapping and
the default-stage fallback. -/
def buildContext (response : TicketResponse) : CheckTicketResult :=
  match firstPass ⟨defaultExternalIp, 0, []⟩ response.players with
  | .error .invalidAddr => ⟨.err .InvalidAddr, none⟩
  | .error .underflow => ⟨.underflow, none⟩
  | .ok st =>
    match secondPass st.local_player_index st.local_external_ip.ip response.players with
    | .error .invalidAddr => ⟨.err .InvalidAddr, none⟩
    | .error .underflow => ⟨.underflow, none⟩
    | .ok remote_addrs =>
      ⟨.ok (some
        { id := response.match_id
          local_player_index := st.local_player_index
          players := st.players
          stages := applyStageDefaults st.players.length (mapStages response.stages)
          remote_addrs := remote_addrs
          is_host := response.is_host }), none⟩

/-- `check_ticket` from `netplay/src/matchmaking.rs` (lines 566-693), as a
function of the transport receive result: a `Timeout` is `Ok(None)`, other
receive errors propagate, a wrong discriminator is `InvalidResponse`, a
populated server error field becomes `Server` (reporting a non-empty
`latest_version` to the identity manager first), and otherwise the context
is built. -/
def check_ticket (recv : Except ReceiveError TicketResponse) : CheckTicketResult :=
  match recv with
  | .error ReceiveError.Timeout => ⟨.ok none, none⟩
  | .error e => ⟨.err (.Receive e), none⟩
  | .ok response =>
    if response.kind ≠ GET_TICKET_RESP then
      ⟨.err (.InvalidResponse response.kind), none⟩
    else
      match response.error with
      | some error =>
        ⟨.err (.Server error),
          if response.latest_version ≠ "" then some response.latest_version else none⟩
      | none => buildContext response

/-- The spec's address-selection rule for one remote player, written from the
spec's own words for comparison with `secondPass`: if the remote external IP
differs from the local external IP the external address is chosen (even when
a LAN address is present); if the IPs match and a LAN address is present the
LAN address is chosen; if the IPs match and no LAN address is present the
external address is used. `none` marks an attempted parse failing. -/
def specChosenAddr (local_ip : Ipv4Addr) (p : PlayerInfo) : Option SocketAddr :=
  match parseSocketAddr p.ip_address with
  | none => none
  | some ext =>
    if ext.ip ≠ local_ip then some ext
    else
      match p.ip_address_lan with
      | some lan => parseSocketAddr lan
      | none => some ext

/-- The transport events `receive` inspects (from the `rusty_enet` `Event`
enum): connect acknowledgment, disconnect, or a received packet carrying raw
bytes. -/
inductive Event
  | Connect
  | Disconnect
  | Receive (data : List Nat)
deriving DecidableEq, Repr

/-- The number of 250 ms polling slices `receive` runs for a requested
`timeout_ms` (an `i32` in the source): the timeout is first clamped up to
250 so the loop runs at least once, then divided by the slice length
(`matchmaking.rs` lines 212-220). -/
def maxAttempts (timeout_ms : Int) : Nat :=
  (if timeout_ms < 250 then (250 : Int) else timeout_ms).toNat / 250

/-- The polling loop of `receive` (`matchmaking.rs` lines 224-241).
`service` is the host's event source indexed by attempt (an `Except` error
models an IO failure of `host.service()`), `utf8` models
`str::from_utf8` and `deser` models `serde_json::from_str::<T>`; the second
`Nat` argument is the number of attempts remaining. -/
def receiveLoop {T : Type} (service : Nat → Except Unit (Option Event))
    (utf8 : List Nat → Option String) (deser : String → Option T) :
    Nat → Nat → Except ReceiveError T
  | _, 0 => .error .Timeout
  | attempt, n + 1 =>
    match service attempt with
    | .error _ => .error .HostRead
    | .ok none => receiveLoop service utf8 deser (attempt + 1) n
    | .ok (some .Connect) => receiveLoop service utf8 deser (attempt + 1) n
    | .ok (some .Disconnect) => .error .Disconnect
    | .ok (some (.Receive data)) =>
      match utf8 data with
      | none => .error .Utf8Read
      | some s =>
        match deser s with
        | none => .error .Deserialize
        | some v => .ok v

/-- `receive::<T>` from `netplay/src/matchmaking.rs` (lines 208-242). -/
def receive {T : Type} (service : Nat → Except Unit (Option Event))
    (utf8 : List Nat → Option String) (deser : String → Option T)
    (timeout_ms : Int) : Except ReceiveError T :=
  receiveLoop service utf8 deser 0 (maxAttempts timeout_ms)

/-- `service` yields neither an IO error, a disconnect, nor a message at
attempt `k`: the loop simply moves to the next slice. -/
def quietAt (service : Nat → Except Unit (Option Event)) (k : Nat) : Prop :=
  service k = .ok none ∨ service k = .ok (some .Connect)

/-- One generation of handoff cells (`NetplayManager`'s `state`, `context`
and `error` fields): the atomic state cell plus the two write-once cells,
each `none` until set. -/
structure Cells where
  state : NetplayState
  context : Option MatchContext
  error : Option String
deriving DecidableEq, Repr

/-- The fresh cells `find_match` allocates for a new generation
(`lib.rs` lines 136-138). -/
def Cells.fresh : Cells := ⟨.Initializing, none, none⟩

/-- The cross-thread store: one `Cells` record per generation. A worker
holds the generation index it was spawned with and can only write through
that index, mirroring how each Rust worker owns clones of exactly its own
generation's `Arc` handles. -/
abbrev Store := Nat → Cells

/-- `OnceValue::set` from `shared-types/src/lib.rs` (lines 87-95): the first
write sticks; a second write is logged and discarded, not fatal. -/
def OnceValue.set {α : Type} (cell : Option α) (value : α) : Option α :=
  match cell with
  | some existing => some existing
  | none => some value

/-- Write the state cell of generation `g` (an `AtomicState::set`). -/
def storeSetState (store : Store) (g : Nat) (s : NetplayState) : Store :=
  fun g2 => if g2 = g then { store g2 with state := s } else store g2

/-- Write the error cell of generation `g` through `OnceValue::set`. -/
def storeSetError (store : Store) (g : Nat) (msg : String) : Store :=
  fun g2 => if g2 = g then { store g2 with error := OnceValue.set (store g2).error msg } else store g2

/-- Write the context cell of generation `g` through `OnceValue::set`. -/
def storeSetContext (store : Store) (g : Nat) (ctx : MatchContext) : Store :=
  fun g2 => if g2 = g then { store g2 with context := OnceValue.set (store g2).context ctx } else store g2

/-- `ConnectError` from `netplay/src/matchmaking.rs` (payloads elided). -/
inductive ConnectError
  | ServerLookup
  | NoValidServerAddr
  | SocketBind
  | SocketPortCheck
  | HostNew
  | NoAvailablePeers
  | HostRead
  | UnableToConnect
deriving DecidableEq, Repr

/-- `SubmitTicketError` from `netplay/src/matchmaking.rs`. -/
inductive SubmitTicketError
  | Connect (e : ConnectError)
  | LanAddrLookup
  | InvalidBody
  | Receive (e : ReceiveError)
  | InvalidResponse (kind : String)
  | Server (msg : String)
deriving DecidableEq, Repr

/-- The user-facing message `set_init_error` writes for each submit error
(`matchmaking.rs` lines 393-414). -/
def initErrorMessage : SubmitTicketError → String
  | .Connect .ServerLookup => "Failed to find mm server"
  | .Connect .NoValidServerAddr => "Failed to route to mm server"
  | .Connect .HostNew => "Failed to create mm client"
  | .Connect .SocketBind => "Failed to create mm client"
  | .Connect .SocketPortCheck => "Failed to create mm client"
  | .Connect .NoAvailablePeers => "Failed to start connection to mm server"
  | .Connect .HostRead => "Failed to start connection to mm server"
  | .Connect .UnableToConnect => "Failed to start connection to mm server"
  | .LanAddrLookup => "Unable to determine IP addr"
  | .InvalidBody => "Failed to submit to mm queue"
  | .Receive _ => "Failed to join mm queue"
  | .InvalidResponse _ => "Invalid response from mm queue"
  | .Server e => e

/-- The user-facing message `set_matchmake_error` writes for each
`check_ticket` error (`matchmaking.rs` lines 498-506). -/
def matchmakeErrorMessage : CheckTicketError → String
  | .Receive .Disconnect => "Lost connection to the mm server"
  | .Receive _ => "Failed to receive mm status"
  | .InvalidResponse _ => "Invalid response when getting mm status"
  | .Server e => e
  | .InvalidAddr => "Invalid response from mm"

/-- What the environment feeds one iteration of the worker loop: an optional
coordinator write to the worker's own state cell interleaved before the
iteration's `state.get()` (how a superseding `find_match` is observed), the
result of `submit_ticket` if this iteration submits, and the transport
receive result fed to `check_ticket` if this iteration polls. -/
structure EnvStep where
  external : Option NetplayState
  submit : Except SubmitTicketError Unit
  check : Except ReceiveError TicketResponse

/-- Apply the interleaved coordinator write, if any. -/
def applyExternal (g : Nat) (ext : Option NetplayState) (store : Store) : Store :=
  match ext with
  | some s => storeSetState store g s
  | none => store

/-- How one iteration of `run`'s loop ends: continue looping, return early
from an error branch, die from the `usize` underflow panic inside
`check_ticket`, or break out to the exit path. -/
inductive IterOut
  | cont (store : Store) (host : Bool) (context : MatchContext)
  | returned (store : Store)
  | panicked (store : Store)
  | exited (store : Store) (host : Bool) (context : MatchContext)

/-- One iteration of the worker loop in `run`
(`netplay/src/matchmaking.rs` lines 55-103). `host` records whether the enet
host has been established; `context` is the local `context` variable. -/
def runIteration (g : Nat) (step : EnvStep) (store : Store) (host : Bool)
    (context : MatchContext) : IterOut :=
  let store := applyExternal g step.external store
  match (store g).state with
  | NetplayState.Initializing =>
    match step.submit with
    | .ok _ => .cont (storeSetState store g .Matchmaking) true context
    | .error e =>
      .returned (storeSetState (storeSetError store g (initErrorMessage e)) g .ErrorEncountered)
  | NetplayState.Matchmaking =>
    if host = false then
      .returned (storeSetState (storeSetError store g "Missing host") g .ErrorEncountered)
    else
      match (check_ticket step.check).outcome with
      | .ok (some ctx) => .cont (storeSetState store g .OpponentConnecting) host ctx
      | .ok none => .cont store host context
      | .err e =>
        .returned (storeSetState (storeSetError store g (matchmakeErrorMessage e)) g .ErrorEncountered)
      | .underflow => .panicked store
  | _ => .exited store host context

/-- How the whole `run` call ended. -/
inductive RunExit
  | returnedEarly
  | finishedBreak
  | panicked
  | outOfFuel
deriving DecidableEq, Repr

/-- The observable result of a `run` call: the final store, how it ended,
whether `terminate_connection` ran, and whether the ranked-mode
"connecting" status report fired. -/
structure RunOutput where
  store : Store
  exit : RunExit
  teardown : Bool
  report : Bool

/-- The id marker `run` looks for to detect a ranked match
(`matchmaking.rs` line 110). -/
def rankedMarker : String := "mode.ranked"

/-- The code after `run`'s loop (`matchmaking.rs` lines 105-121): tear the
transport down when a host exists, fire the ranked status report when the
match id carries the ranked marker, and store the accumulated context into
this generation's write-once context cell. -/
def runExitPath (g : Nat) (store : Store) (host : Bool) (context : MatchContext) : RunOutput :=
  { store := storeSetContext store g context
    exit := RunExit.finishedBreak
    teardown := host
    report := strContainsSub context.id rankedMarker }

/-- `run` from `netplay/src/matchmaking.rs` (lines 38-121) as a fuel-bounded
loop over `runIteration`; fuel exhaustion marks an unfinished (still
looping) worker, not a behavior of the source. -/
def runLoop (g : Nat) (env : Nat → EnvStep) :
    Nat → Nat → Store → Bool → MatchContext → RunOutput
  | 0, _, store, _, _ => ⟨store, .outOfFuel, false, false⟩
  | fuel + 1, iter, store, host, context =>
    match runIteration g (env iter) store host context with
    | .cont store2 host2 context2 => runLoop g env fuel (iter + 1) store2 host2 context2
    | .returned store2 => ⟨store2, .returnedEarly, false, false⟩
    | .panicked store2 => ⟨store2, .panicked, false, false⟩
    | .exited store2 host2 context2 => runExitPath g store2 host2 context2

/-- Entry point of the worker: host not yet established, context defaulted. -/
def run (g : Nat) (env : Nat → EnvStep) (fuel : Nat) (store : Store) : RunOutput :=
  runLoop g env fuel 0 store false MatchContext.default

/-- The coordinator's view: the generation index its current cells belong
to (the `NetplayManager` fields are the cells of `Store` at `gen`). -/
structure Manager where
  gen : Nat
deriving DecidableEq, Repr

/-- `NetplayManager::find_match` from `netplay/src/lib.rs` (lines 126-159),
cell handling only: force the current generation's state to `Idle` (the
abandonment signal for any in-flight worker), then allocate a fresh
generation of all three cells and switch the coordinator to it. The spawned
worker runs `run` with the new generation index; the spawn-failure branch is
not modelled. -/
def find_match (mgr : Manager) (store : Store) : Manager × Store :=
  let store1 := storeSetState store mgr.gen NetplayState.Idle
  let newGen := mgr.gen + 1
  let store2 : Store := fun g => if g = newGen then Cells.fresh else store1 g
  (⟨newGen⟩, store2)

/-- Result of `remote_player_count`: a value, or the `usize` underflow panic
of `players.len() - 1` on an empty player list. -/
inductive CountResult
  | val (n : Nat)
  | underflow
deriving DecidableEq, Repr

/-- `NetplayManager::remote_player_count` from `netplay/src/lib.rs`
(lines 79-84): `players.len() - 1` for a stored context (an unchecked
`usize` subtraction, embedded with an explicit underflow branch), `0` when
no context is stored. -/
def remote_player_count (context : Option MatchContext) : CountResult :=
  match context with
  | some ctx => if ctx.players.length = 0 then .underflow else .val (ctx.players.length - 1)
  | none => .val 0

/-- Fixture: a default (all-zero) rank record. -/
def rank0 : PlayerRank := ⟨0, 0, 0, 0⟩

/-- Fixture: a local player on port 1 with a parseable external address. -/
def wLocalPlayer : PlayerInfo :=
  ⟨true, "u1", "P1", "AAA#1", 1, "1.2.3.4:51000", none, false, chatDefault, rank0⟩

/-- Fixture: a remote player on port 2 with distinct external IP and a LAN
address. -/
def wRemotePlayer : PlayerInfo :=
  ⟨false, "u2", "P2", "BBB#2", 2, "5.6.7.8:51001", some "192.168.0.9:51002", false, chatDefault, rank0⟩

/-- Fixture: a valid two-player assignment response with an empty stage
list. -/
def wResp : TicketResponse :=
  ⟨"get-ticket-resp", "", "match-1", none, [wLocalPlayer, wRemotePlayer], [], false⟩

/-- Fixture: an assignment whose local player sits on port 0, driving the
`local_player_index` subtraction into underflow. -/
def wRespLocalPortZero : TicketResponse :=
  ⟨"get-ticket-resp", "", "m0", none,
    [⟨true, "u1", "P1", "AAA#1", 0, "1.2.3.4:51000", none, false, chatDefault, rank0⟩], [], false⟩

/-- Fixture: an assignment whose remote player sits on port 0; the first
pass succeeds and the second pass's skip-test subtraction underflows. -/
def wRespRemotePortZero : TicketResponse :=
  ⟨"get-ticket-resp", "", "m0", none,
    [wLocalPlayer,
     ⟨false, "u2", "P2", "BBB#2", 0, "5.6.7.8:51001", none, false, chatDefault, rank0⟩], [], false⟩

/-- Fixture: a poll response carrying a populated server error field and a
latest-version string. -/
def wRespServerErr : TicketResponse :=
  ⟨"get-ticket-resp", "9.9.9", "", some "Queue rejected", [], [], false⟩

/-- Fixture: a store whose every generation sits at `Matchmaking` with both
write-once cells unset. -/
def wStoreMM : Store := fun _ => ⟨NetplayState.Matchmaking, none, none⟩

/-- Fixture: an environment whose every poll times out. -/
def wEnvTimeout : Nat → EnvStep := fun _ => ⟨none, .ok (), .error .Timeout⟩

/-- Fixture: a single iteration step whose poll times out. -/
def wStepTimeout : EnvStep := ⟨none, .ok (), .error .Timeout⟩

/-- Fixture: a single iteration step whose poll returns the server-error
response. -/
def wStepServerErr : EnvStep := ⟨none, .ok (), .ok wRespServerErr⟩

/-- Fixture: an event source that delivers one message packet at the first
slice. -/
def wService : Nat → Except Unit (Option Event) :=
  fun k => if k = 0 then .ok (some (.Receive [49])) else .ok none

/-- Fixture: an event source that stays quiet forever. -/
def wServiceQuiet : Nat → Except Unit (Option Event) := fun _ => .ok none

/-- Fixture: a UTF-8 decoder recognizing the single byte 49 as "1". -/
def wUtf8 : List Nat → Option String := fun d => if d = [49] then some "1" else none

/-- Fixture: a deserializer decoding "1" as the number 1. -/
def wDeser : String → Option Nat := fun s => if s = "1" then some (1 : Nat) else none

/-! ## Helper lemmas -/

lemma filterMap_length_all_some {α β : Type} (f : α → Option β) :
    ∀ l : List α, (∀ x ∈ l, f x ≠ none) → (l.filterMap f).length = l.length := by
  intro l
  induction l with
  | nil => intro _; rfl
  | cons x xs ih =>
    intro h
    have hx := h x (by simp)
    have hxs := ih (fun y hy => h y (by simp [hy]))
    rcases hfx : f x with _ | b
    · exact absurd hfx hx
    · simp [List.filterMap_cons, hfx, hxs]

lemma filter_all_true {α : Type} (p : α → Bool) :
    ∀ l : List α, (∀ x ∈ l, p x = true) → l.filter p = l := by
  intro l
  induction l with
  | nil => intro _; rfl
  | cons x xs ih =>
    intro h
    have hx := h x (by simp)
    have hxs := ih (fun y hy => h y (by simp [hy]))
    simp [List.filter_cons, hx, hxs]

/-- Under pairwise-distinct ports that are all at least 1, exactly the one
seat matching `lp` is removed by the second pass's skip test. -/
lemma filter_skip_length (lp : PlayerInfo) :
    ∀ l : List PlayerInfo, lp ∈ l → (∀ p ∈ l, 1 ≤ p.port) →
      l.Pairwise (fun p q => p.port ≠ q.port) →
      (l.filter (fun p => p.port - 1 != lp.port - 1)).length = l.length - 1 := by
  intro l
  induction l with
  | nil => intro h; simp at h
  | cons q rest ih =>
    intro hmem hports hpw
    rcases List.pairwise_cons.mp hpw with ⟨hq, hrest⟩
    rcases List.mem_cons.mp hmem with hqlp | hlp
    · have hqfalse : (q.port - 1 != lp.port - 1) = false := by
        rw [hqlp]; simp
      have hall : ∀ p ∈ rest, (p.port - 1 != lp.port - 1) = true := by
        intro p hp
        have hne : q.port ≠ p.port := hq p hp
        have h1q : 1 ≤ q.port := hports q (by simp)
        have h1p : 1 ≤ p.port := hports p (by simp [hp])
        rw [hqlp]
        simp only [bne_iff_ne, ne_eq]
        omega
      simp [List.filter_cons, hqfalse, filter_all_true _ rest hall]
    · have hqtrue : (q.port - 1 != lp.port - 1) = true := by
        have hne : q.port ≠ lp.port := hq lp hlp
        have h1q : 1 ≤ q.port := hports q (by simp)
        have h1lp : 1 ≤ lp.port := hports lp (by simp [hlp])
        simp only [bne_iff_ne, ne_eq]
        omega
      have hrlen : 1 ≤ rest.length := by
        rcases rest with _ | _
        · simp at hlp
        · simp
      have := ih hlp (fun p hp => hports p (by simp [hp])) hrest
      simp only [List.filter_cons, hqtrue, if_true, List.length_cons]
      omega

/-- Success and full characterization of `check_ticket`'s first player loop:
when every local entry has a parseable address and a 1-based port, the pass
succeeds, appends the converted players in order, and - when exactly one
entry is flagged local - lands the local external address and the 0-based
local index on that entry. -/
lemma firstPass_ok :
    ∀ (l : List PlayerInfo) (st : FirstPassState),
      (∀ p ∈ l, p.is_local = true → 1 ≤ p.port ∧ (parseSocketAddr p.ip_address).isSome) →
      ∃ ip li, firstPass st l = .ok ⟨ip, li, st.players ++ l.map playerOfInfo⟩ ∧
        (l.filter (fun p => p.is_local) = [] →
          ip = st.local_external_ip ∧ li = st.local_player_index) ∧
        (∀ lp a, l.filter (fun p => p.is_local) = [lp] →
          parseSocketAddr lp.ip_address = some a → ip = a ∧ li = lp.port - 1) := by
  intro l
  induction l with
  | nil =>
    intro st _
    refine ⟨st.local_external_ip, st.local_player_index, by simp [firstPass], fun _ => ⟨rfl, rfl⟩, ?_⟩
    intro lp a hfil
    simp at hfil
  | cons p rest ih =>
    intro st h
    by_cases hloc : p.is_local = true
    · obtain ⟨hport, hparse⟩ := h p (by simp) hloc
      rcases hpa : parseSocketAddr p.ip_address with _ | a0
      · rw [hpa] at hparse; simp at hparse
      · have hpz : ¬(p.port = 0) := by omega
        obtain ⟨ip, li, heq, hnone, _⟩ :=
          ih ⟨a0, p.port - 1, st.players ++ [playerOfInfo p]⟩
            (fun q hq hql => h q (by simp [hq]) hql)
        have hfc : List.filter (fun p => p.is_local) (p :: rest) =
            p :: List.filter (fun p => p.is_local) rest := by
          simp [List.filter_cons, hloc]
        refine ⟨ip, li, ?_, ?_, ?_⟩
        · simp [firstPass, hloc, hpa, hpz]
          rw [heq]
          simp
        · intro hfil
          rw [hfc] at hfil
          exact absurd hfil (by simp)
        · intro lp a hfil hpa2
          rw [hfc] at hfil
          injection hfil with hplp hrest
          obtain ⟨hip, hli⟩ := hnone hrest
          subst hplp
          rw [hpa] at hpa2
          injection hpa2 with ha
          exact ⟨hip.trans ha, hli⟩
    · obtain ⟨ip, li, heq, hnone, hone⟩ :=
        ih ⟨st.local_external_ip, st.local_player_index, st.players ++ [playerOfInfo p]⟩
          (fun q hq hql => h q (by simp [hq]) hql)
      refine ⟨ip, li, ?_, ?_, ?_⟩
      · simp [firstPass, hloc]
        rw [heq]
        simp
      · intro hfil
        simp only [List.filter_cons, hloc, if_false] at hfil
        exact hnone hfil
      · intro lp a hfil hpa2
        simp only [List.filter_cons, hloc, if_false] at hfil
        exact hone lp a hfil hpa2

/-- Success and full characterization of `check_ticket`'s second player
loop: under 1-based ports, when every non-skipped player's selected address
parses, the pass returns exactly the spec-rule selections of the
non-skipped players, in order. -/
lemma secondPass_ok (li : Nat) (lip : Ipv4Addr) :
    ∀ l : List PlayerInfo,
      (∀ p ∈ l, 1 ≤ p.port) →
      (∀ p ∈ l, p.port - 1 ≠ li → specChosenAddr lip p ≠ none) →
      secondPass li lip l =
        .ok ((l.filter (fun p => p.port - 1 != li)).filterMap (specChosenAddr lip)) := by
  intro l
  induction l with
  | nil => intro _ _; rfl
  | cons p rest ih =>
    intro hports hsel
    have hp1 : 1 ≤ p.port := hports p (by simp)
    have hrec := ih (fun q hq => hports q (by simp [hq])) (fun q hq hqs => hsel q (by simp [hq]) hqs)
    have hpz : ¬(p.port = 0) := by omega
    by_cases hskip : p.port - 1 = li
    · have hfil : (p.port - 1 != li) = false := by simp [hskip]
      simp [secondPass, hpz, hskip, hrec, List.filter_cons, hfil]
    · have hchosen := hsel p (by simp) hskip
      have hfil : (p.port - 1 != li) = true := by simp [bne_iff_ne, hskip]
      rcases hpa : parseSocketAddr p.ip_address with _ | ext
      · exfalso
        apply hchosen
        simp [specChosenAddr, hpa]
      · by_cases hip : ext.ip = lip
        · rcases hlan : p.ip_address_lan with _ | lan
          · have hcond : ext.ip ≠ lip ∨ p.ip_address_lan = none := Or.inr hlan
            have hspec : specChosenAddr lip p = some ext := by
              simp [specChosenAddr, hpa, hip, hlan]
            simp [secondPass, hpz, hskip, hpa, hip, hlan, hcond, hrec, List.filter_cons, hfil,
              List.filterMap_cons, hspec]
          · have hcond : ¬(ext.ip ≠ lip ∨ p.ip_address_lan = none) := by
              simp [hip, hlan]
            rcases hlp : parseSocketAddr lan with _ | lanAddr
            · exfalso
              apply hchosen
              simp [specChosenAddr, hpa, hip, hlan, hlp]
            · have hspec : specChosenAddr lip p = some lanAddr := by
                simp [specChosenAddr, hpa, hip, hlan, hlp]
              simp [secondPass, hpz, hskip, hpa, hip, hcond, hlan, hlp, hrec, List.filter_cons,
                hfil, List.filterMap_cons, hspec]
        · have hcond : ext.ip ≠ lip ∨ p.ip_address_lan = none := Or.inl hip
          have hspec : specChosenAddr lip p = some ext := by
            simp [specChosenAddr, hpa, hip]
          simp [secondPass, hpz, hskip, hpa, hcond, hrec, List.filter_cons, hfil,
            List.filterMap_cons, hspec]

/-- The first pass cannot underflow when every local entry's port is
1-based. -/
lemma firstPass_no_underflow :
    ∀ (l : List PlayerInfo) (st : FirstPassState),
      (∀ p ∈ l, p.is_local = true → 1 ≤ p.port) →
      firstPass st l ≠ .error .underflow := by
  intro l
  induction l with
  | nil => intro st _; simp [firstPass]
  | cons p rest ih =>
    intro st h
    by_cases hloc : p.is_local = true
    · rcases hpa : parseSocketAddr p.ip_address with _ | a0
      · simp [firstPass, hloc, hpa]
      · have hp1 := h p (by simp) hloc
        have hpz : ¬(p.port = 0) := by omega
        simpa [firstPass, hloc, hpa, hpz] using
          ih _ (fun q hq hql => h q (by simp [hq]) hql)
    · simpa [firstPass, hloc] using
        ih _ (fun q hq hql => h q (by simp [hq]) hql)

/-- The second pass cannot underflow when every port is 1-based. -/
lemma secondPass_no_underflow (li : Nat) (lip : Ipv4Addr) :
    ∀ l : List PlayerInfo, (∀ p ∈ l, 1 ≤ p.port) →
      secondPass li lip l ≠ .error .underflow := by
  intro l
  induction l with
  | nil => intro _; simp [secondPass]
  | cons p rest ih =>
    intro h
    have hp1 : 1 ≤ p.port := h p (by simp)
    have hpz : ¬(p.port = 0) := by omega
    have hih := ih (fun q hq => h q (by simp [hq]))
    by_cases hskip : p.port - 1 = li
    · simpa [secondPass, hpz, hskip] using hih
    · rcases hpa : parseSocketAddr p.ip_address with _ | ext
      · simp [secondPass, hpz, hskip, hpa]
      · by_cases hcond : ext.ip ≠ lip ∨ p.ip_address_lan = none
        · rcases hr : secondPass li lip rest with e | addrs
          · cases e
            · simp [secondPass, hpz, hskip, hpa, hcond, hr]
            · exact absurd hr hih
          · simp [secondPass, hpz, hskip, hpa, hcond, hr]
        · have hip : ext.ip = lip := by
            rcases not_or.mp hcond with ⟨h1, _⟩
            exact not_not.mp h1
          rcases hlan : p.ip_address_lan with _ | lan
          · exact absurd (Or.inr hlan) hcond
          · rcases hlp : parseSocketAddr lan with _ | lanAddr
            · simp [secondPass, hpz, hskip, hpa, hip, hcond, hlan, hlp]
            · rcases hr : secondPass li lip rest with e | addrs
              · cases e
                · simp [secondPass, hpz, hskip, hpa, hip, hcond, hlan, hlp, hr]
                · exact absurd hr hih
              · simp [secondPass, hpz, hskip, hpa, hip, hcond, hlan, hlp, hr]

/-- Full characterization of `check_ticket` on a valid assignment payload:
right discriminator, no server error, exactly one player flagged local
(whose external address parses to `a`), 1-based ports, and a parseable
selected address for every non-skipped player. -/
lemma check_ticket_valid (resp : TicketResponse) (lp : PlayerInfo) (a : SocketAddr)
    (hkind : resp.kind = GET_TICKET_RESP)
    (herr : resp.error = none)
    (hlocal : resp.players.filter (fun p => p.is_local) = [lp])
    (hports : ∀ p ∈ resp.players, 1 ≤ p.port)
    (hpa : parseSocketAddr lp.ip_address = some a)
    (hsel : ∀ p ∈ resp.players, p.port - 1 ≠ lp.port - 1 → specChosenAddr a.ip p ≠ none) :
    check_ticket (.ok resp) =
      ⟨.ok (some
        { id := resp.match_id
          local_player_index := lp.port - 1
          players := resp.players.map playerOfInfo
          stages := applyStageDefaults resp.players.length (mapStages resp.stages)
          remote_addrs :=
            (resp.players.filter (fun p => p.port - 1 != lp.port - 1)).filterMap
              (specChosenAddr a.ip)
          is_host := resp.is_host }), none⟩ := by
  have h1 : ∀ p ∈ resp.players, p.is_local = true →
      1 ≤ p.port ∧ (parseSocketAddr p.ip_address).isSome := by
    intro p hp hploc
    have hpf : p ∈ resp.players.filter (fun p => p.is_local) :=
      List.mem_filter.mpr ⟨hp, by simp [hploc]⟩
    rw [hlocal] at hpf
    simp at hpf
    subst hpf
    exact ⟨hports p hp, by simp [hpa]⟩
  obtain ⟨ip, li, heq, _, hone⟩ := firstPass_ok resp.players ⟨defaultExternalIp, 0, []⟩ h1
  obtain ⟨hipa, hlia⟩ := hone lp a hlocal hpa
  subst hipa
  subst hlia
  have hsp := secondPass_ok (lp.port - 1) ip.ip resp.players hports hsel
  simp [check_ticket, hkind, herr, buildContext, heq, hsp]

/-- When every slice up to exhaustion is quiet, the polling loop times
out. -/
lemma receiveLoop_timeout {T : Type} (service : Nat → Except Unit (Option Event))
    (utf8 : List Nat → Option String) (deser : String → Option T) :
    ∀ (n attempt : Nat), (∀ k, attempt ≤ k → k < attempt + n → quietAt service k) →
      receiveLoop service utf8 deser attempt n = .error .Timeout := by
  intro n
  induction n with
  | zero => intro attempt _; rfl
  | succ m ih =>
    intro attempt h
    have hq := h attempt (le_refl _) (by omega)
    have hrest := ih (attempt + 1) (fun k hk1 hk2 => h k (by omega) (by omega))
    rcases hq with h0 | h0
    · simp [receiveLoop, h0, hrest]
    · simp [receiveLoop, h0, hrest]

/-- When the slices before `j` are quiet and slice `j` delivers a
disconnect, the polling loop short-circuits with `Disconnect`. -/
lemma receiveLoop_disconnect {T : Type} (service : Nat → Except Unit (Option Event))
    (utf8 : List Nat → Option String) (deser : String → Option T) :
    ∀ (n attempt j : Nat), attempt ≤ j → j < attempt + n →
      (∀ k, attempt ≤ k → k < j → quietAt service k) →
      service j = .ok (some .Disconnect) →
      receiveLoop service utf8 deser attempt n = .error .Disconnect := by
  intro n
  induction n with
  | zero => intro attempt j h1 h2 _ _; omega
  | succ m ih =>
    intro attempt j h1 h2 hq hj
    by_cases hja : j = attempt
    · subst hja
      simp [receiveLoop, hj]
    · have hrest := ih (attempt + 1) j (by omega) (by omega)
        (fun k hk1 hk2 => hq k (by omega) hk2) hj
      rcases hq attempt (le_refl _) (by omega) with h0 | h0
      · simp [receiveLoop, h0, hrest]
      · simp [receiveLoop, h0, hrest]

/-- When the slices before `j` are quiet and slice `j` delivers a message
packet, the polling loop decodes that packet: UTF-8 then structural
decoding, with the corresponding error on either failure. -/
lemma receiveLoop_message {T : Type} (service : Nat → Except Unit (Option Event))
    (utf8 : List Nat → Option String) (deser : String → Option T) (d : List Nat) :
    ∀ (n attempt j : Nat), attempt ≤ j → j < attempt + n →
      (∀ k, attempt ≤ k → k < j → quietAt service k) →
      service j = .ok (some (.Receive d)) →
      receiveLoop service utf8 deser attempt n =
        (match utf8 d with
          | none => .error .Utf8Read
          | some s =>
            match deser s with
            | none => .error .Deserialize
            | some v => .ok v) := by
  intro n
  induction n with
  | zero => intro attempt j h1 h2 _ _; omega
  | succ m ih =>
    intro attempt j h1 h2 hq hj
    by_cases hja : j = attempt
    · subst hja
      simp [receiveLoop, hj]
    · have hrest := ih (attempt + 1) j (by omega) (by omega)
        (fun k hk1 hk2 => hq k (by omega) hk2) hj
      rcases hq attempt (le_refl _) (by omega) with h0 | h0
      · simp [receiveLoop, h0, hrest]
      · simp [receiveLoop, h0, hrest]

/-! ## Claim theorems -/

/-- C1: for every valid assignment payload - exactly one player flagged
`isLocalPlayer` (whose external address parses), all ports distinct and
1-based, and every non-skipped player's selected address parseable -
`check_ticket` produces a `MatchContext` whose `remote_addrs` list has
length `players.len() - 1` and whose `local_player_index` equals the
1-based port minus 1 of the player flagged `isLocalPlayer`. -/
theorem C1_valid_assignment_shape (resp : TicketResponse) (lp : PlayerInfo) (a : SocketAddr)
    (hkind : resp.kind = GET_TICKET_RESP)
    (herr : resp.error = none)
    (hlocal : resp.players.filter (fun p => p.is_local) = [lp])
    (hports : ∀ p ∈ resp.players, 1 ≤ p.port)
    (hdis : resp.players.Pairwise (fun p q => p.port ≠ q.port))
    (hpa : parseSocketAddr lp.ip_address = some a)
    (hsel : ∀ p ∈ resp.players, p.port - 1 ≠ lp.port - 1 → specChosenAddr a.ip p ≠ none) :
    ∃ ctx : MatchContext,
      check_ticket (.ok resp) = ⟨.ok (some ctx), none⟩ ∧
      ctx.players.length = resp.players.length ∧
      ctx.remote_addrs.length = resp.players.length - 1 ∧
      ctx.local_player_index = lp.port - 1 := by
  have hlpmem : lp ∈ resp.players := by
    have h0 : lp ∈ resp.players.filter (fun p => p.is_local) := by rw [hlocal]; simp
    exact List.mem_of_mem_filter h0
  refine ⟨_, check_ticket_valid resp lp a hkind herr hlocal hports hpa hsel, by simp, ?_, rfl⟩
  have hall : ∀ x ∈ resp.players.filter (fun p => p.port - 1 != lp.port - 1),
      specChosenAddr a.ip x ≠ none := by
    intro x hx
    have hx1 := List.mem_of_mem_filter hx
    have hx2 := List.of_mem_filter hx
    exact hsel x hx1 (by simpa [bne_iff_ne] using hx2)
  show ((resp.players.filter (fun p => p.port - 1 != lp.port - 1)).filterMap
      (specChosenAddr a.ip)).length = resp.players.length - 1
  rw [filterMap_length_all_some _ _ hall,
    filter_skip_length lp resp.players hlpmem hports hdis]

/-- Witness for C1 at a concrete two-player assignment. -/
theorem C1_valid_assignment_shape_witness :
    ∃ ctx : MatchContext,
      check_ticket (.ok wResp) = ⟨.ok (some ctx), none⟩ ∧
      ctx.players.length = wResp.players.length ∧
      ctx.remote_addrs.length = wResp.players.length - 1 ∧
      ctx.local_player_index = wLocalPlayer.port - 1 :=
  C1_valid_assignment_shape wResp wLocalPlayer ⟨⟨1, 2, 3, 4⟩, 51000⟩
    (by decide) (by decide) (by decide) (by decide) (by decide) (by decide) (by decide)

/-- C5: if `check_ticket` receives a valid assignment whose stage list maps
to an empty result, it substitutes the fixed 5-stage default set when the
player count is greater than 2, and the 6-stage default (the extra stage
`FountainOfDreams` appended last) when there are exactly 2 players. -/
theorem C5_default_stage_substitution (resp : TicketResponse) (lp : PlayerInfo) (a : SocketAddr)
    (hkind : resp.kind = GET_TICKET_RESP)
    (herr : resp.error = none)
    (hlocal : resp.players.filter (fun p => p.is_local) = [lp])
    (hports : ∀ p ∈ resp.players, 1 ≤ p.port)
    (hpa : parseSocketAddr lp.ip_address = some a)
    (hsel : ∀ p ∈ resp.players, p.port - 1 ≠ lp.port - 1 → specChosenAddr a.ip p ≠ none)
    (hmap : mapStages resp.stages = []) :
    ∃ ctx : MatchContext,
      check_ticket (.ok resp) = ⟨.ok (some ctx), none⟩ ∧
      (resp.players.length = 2 →
        ctx.stages = [.PokemonStadium, .YoshisStory, .Dreamland, .Battlefield,
          .FinalDestination, .FountainOfDreams]) ∧
      (2 < resp.players.length →
        ctx.stages = [.PokemonStadium, .YoshisStory, .Dreamland, .Battlefield,
          .FinalDestination]) := by
  refine ⟨_, check_ticket_valid resp lp a hkind herr hlocal hports hpa hsel, ?_, ?_⟩
  · intro h2
    show applyStageDefaults resp.players.length (mapStages resp.stages) = _
    simp [applyStageDefaults, hmap, h2]
  · intro h2
    have hne : resp.players.length ≠ 2 := by omega
    show applyStageDefaults resp.players.length (mapStages resp.stages) = _
    simp [applyStageDefaults, hmap, hne]

/-- Witness for C5 at a concrete two-player assignment with an empty stage
list. -/
theorem C5_default_stage_substitution_witness :
    ∃ ctx : MatchContext,
      check_ticket (.ok wResp) = ⟨.ok (some ctx), none⟩ ∧
      (wResp.players.length = 2 →
        ctx.stages = [.PokemonStadium, .YoshisStory, .Dreamland, .Battlefield,
          .FinalDestination, .FountainOfDreams]) ∧
      (2 < wResp.players.length →
        ctx.stages = [.PokemonStadium, .YoshisStory, .Dreamland, .Battlefield,
          .FinalDestination]) :=
  C5_default_stage_substitution wResp wLocalPlayer ⟨⟨1, 2, 3, 4⟩, 51000⟩
    (by decide) (by decide) (by decide) (by decide) (by decide) (by decide) (by decide)

/-- C2: for every remote player processed by `check_ticket`'s second pass
(1-based port, not the local seat): if the parsed external IP differs from
the local external IP the external address is pushed, even when a LAN
address is present; if the IPs are equal and a LAN address is present the
parsed LAN address is pushed; if the IPs are equal and no LAN address is
present the external address is pushed. Every attempted parse failure -
external or LAN, on this player or a later one - makes the pass fail, and
`check_ticket` turns that failure into `InvalidAddr`. -/
theorem C2_address_selection :
    (∀ (li : Nat) (lip : Ipv4Addr) (p : PlayerInfo) (rest : List PlayerInfo),
      1 ≤ p.port → p.port - 1 ≠ li →
      ((∀ a, parseSocketAddr p.ip_address = some a → a.ip ≠ lip →
          ∀ addrs, secondPass li lip rest = .ok addrs →
            secondPass li lip (p :: rest) = .ok (a :: addrs)) ∧
        (∀ a lan b, parseSocketAddr p.ip_address = some a → a.ip = lip →
          p.ip_address_lan = some lan → parseSocketAddr lan = some b →
          ∀ addrs, secondPass li lip rest = .ok addrs →
            secondPass li lip (p :: rest) = .ok (b :: addrs)) ∧
        (∀ a, parseSocketAddr p.ip_address = some a → a.ip = lip →
          p.ip_address_lan = none →
          ∀ addrs, secondPass li lip rest = .ok addrs →
            secondPass li lip (p :: rest) = .ok (a :: addrs)) ∧
        (parseSocketAddr p.ip_address = none →
          secondPass li lip (p :: rest) = .error .invalidAddr) ∧
        (∀ a lan, parseSocketAddr p.ip_address = some a → a.ip = lip →
          p.ip_address_lan = some lan → parseSocketAddr lan = none →
          secondPass li lip (p :: rest) = .error .invalidAddr) ∧
        (∀ a, parseSocketAddr p.ip_address = some a →
          secondPass li lip rest = .error .invalidAddr →
          secondPass li lip (p :: rest) = .error .invalidAddr))) ∧
    (∀ (resp : TicketResponse) (st : FirstPassState),
      resp.kind = GET_TICKET_RESP → resp.error = none →
      firstPass ⟨defaultExternalIp, 0, []⟩ resp.players = .ok st →
      secondPass st.local_player_index st.local_external_ip.ip resp.players =
        .error .invalidAddr →
      check_ticket (.ok resp) = ⟨.err .InvalidAddr, none⟩) := by
  constructor
  · intro li lip p rest hp1 hskip
    have hpz : ¬(p.port = 0) := by omega
    refine ⟨?_, ?_, ?_, ?_, ?_, ?_⟩
    · intro a hpa hip addrs hrest
      have hcond : a.ip ≠ lip ∨ p.ip_address_lan = none := Or.inl hip
      simp [secondPass, hpz, hskip, hpa, hcond, hrest]
    · intro a lan b hpa hip hlan hlp addrs hrest
      have hcond : ¬(a.ip ≠ lip ∨ p.ip_address_lan = none) := by simp [hip, hlan]
      simp [secondPass, hpz, hskip, hpa, hip, hlan, hcond, hlp, hrest]
    · intro a hpa hip hlan addrs hrest
      have hcond : a.ip ≠ lip ∨ p.ip_address_lan = none := Or.inr hlan
      simp [secondPass, hpz, hskip, hpa, hip, hlan, hcond, hrest]
    · intro hpa
      simp [secondPass, hpz, hskip, hpa]
    · intro a lan hpa hip hlan hlp
      have hcond : ¬(a.ip ≠ lip ∨ p.ip_address_lan = none) := by simp [hip, hlan]
      simp [secondPass, hpz, hskip, hpa, hip, hlan, hcond, hlp]
    · intro a hpa hrest
      by_cases hcond : a.ip ≠ lip ∨ p.ip_address_lan = none
      · simp [secondPass, hpz, hskip, hpa, hcond, hrest]
      · have hip : a.ip = lip := by
          rcases not_or.mp hcond with ⟨h1, _⟩
          exact not_not.mp h1
        rcases hlan : p.ip_address_lan with _ | lan
        · exact absurd (Or.inr hlan) hcond
        · rcases hlp : parseSocketAddr lan with _ | b
          · simp [secondPass, hpz, hskip, hpa, hip, hcond, hlan, hlp]
          · simp [secondPass, hpz, hskip, hpa, hip, hcond, hlan, hlp, hrest]
  · intro resp st hkind herr hfp hsp
    simp [check_ticket, hkind, herr, buildContext, hfp, hsp]

/-- C6: the `Stage` numeric mapping is a bijection on the six known ids -
`from` inverts `to_u16` and `to_u16` inverts `from` - every other numeric
id is dropped by the stage loop, and the stage list has no influence on
whether the assignment-processing operation fails. -/
theorem C6_stage_bijection_and_drop :
    (∀ s : Stage, Stage.fromU16 s.to_u16 = some s) ∧
    (∀ (v : Nat) (s : Stage), Stage.fromU16 v = some s → s.to_u16 = v) ∧
    (∀ (v : Nat) (rest : List Nat), Stage.fromU16 v = none →
      mapStages (v :: rest) = mapStages rest) ∧
    (∀ (kind lv mid : String) (err : Option String) (pl : List PlayerInfo)
        (s1 s2 : List Nat) (ih : Bool),
      (check_ticket (.ok ⟨kind, lv, mid, err, pl, s1, ih⟩)).outcome.isFailure =
        (check_ticket (.ok ⟨kind, lv, mid, err, pl, s2, ih⟩)).outcome.isFailure) := by
  refine ⟨?_, ?_, ?_, ?_⟩
  · intro s
    cases s <;> decide
  · intro v s h
    simp only [Stage.fromU16] at h
    split_ifs at h with h1 h2 h3 h4 h5 h6 <;>
      (injection h with h0
       subst h0
       simp only [Stage.to_u16]
       omega)
  · intro v rest h
    simp [mapStages, List.filterMap_cons, h]
  · intro kind lv mid err pl s1 s2 ih
    by_cases hk : kind = GET_TICKET_RESP
    · rcases err with _ | msg
      · rcases hfp : firstPass ⟨defaultExternalIp, 0, []⟩ pl with e | st
        · cases e <;> simp [check_ticket, hk, buildContext, hfp]
        · rcases hsp : secondPass st.local_player_index st.local_external_ip.ip pl
            with e | addrs
          · cases e <;> simp [check_ticket, hk, buildContext, hfp, hsp]
          · simp [check_ticket, hk, buildContext, hfp, hsp, CheckOutcome.isFailure]
      · simp [check_ticket, hk]
    · simp [check_ticket, hk]

/-- C8: a poll response that decodes with the right discriminator but
carries a populated error field raises `Server(message)`, and reports a
non-empty latest-version string to the identity manager as a side effect
(and only then); a response whose discriminator does not match the
assignment tag yields `InvalidResponse` with no side effect. -/
theorem C8_version_report_and_invalid_response :
    (∀ (resp : TicketResponse) (msg : String),
      resp.kind = GET_TICKET_RESP → resp.error = some msg → resp.latest_version ≠ "" →
      check_ticket (.ok resp) = ⟨.err (.Server msg), some resp.latest_version⟩) ∧
    (∀ (resp : TicketResponse) (msg : String),
      resp.kind = GET_TICKET_RESP → resp.error = some msg → resp.latest_version = "" →
      check_ticket (.ok resp) = ⟨.err (.Server msg), none⟩) ∧
    (∀ resp : TicketResponse, resp.kind ≠ GET_TICKET_RESP →
      check_ticket (.ok resp) = ⟨.err (.InvalidResponse resp.kind), none⟩) := by
  refine ⟨?_, ?_, ?_⟩
  · intro resp msg hkind herr hlv
    simp [check_ticket, hkind, herr, hlv]
  · intro resp msg hkind herr hlv
    simp [check_ticket, hkind, herr, hlv]
  · intro resp hkind
    simp [check_ticket, hkind]

/-- C9: `check_ticket` computes `player.port - 1` with unchecked `usize`
subtractions in both passes; the underflow branch is unreachable exactly
under the precondition that every player entry has `port >= 1`, and
concrete payloads carrying a port-0 player reach it - in the first pass's
`local_player_index` assignment when that player is flagged local, and in
the second pass's skip test otherwise. -/
theorem C9_port_underflow :
    (∀ resp : TicketResponse, (∀ p ∈ resp.players, 1 ≤ p.port) →
      (check_ticket (.ok resp)).outcome ≠ .underflow) ∧
    (check_ticket (.ok wRespLocalPortZero)).outcome = .underflow ∧
    (check_ticket (.ok wRespRemotePortZero)).outcome = .underflow ∧
    firstPass ⟨defaultExternalIp, 0, []⟩ wRespLocalPortZero.players = .error .underflow ∧
    (∃ st, firstPass ⟨defaultExternalIp, 0, []⟩ wRespRemotePortZero.players = .ok st ∧
      secondPass st.local_player_index st.local_external_ip.ip wRespRemotePortZero.players =
        .error .underflow) := by
  refine ⟨?_, by decide, by decide, by decide, ?_⟩
  · intro resp h
    by_cases hk : resp.kind = GET_TICKET_RESP
    · rcases herr : resp.error with _ | msg
      · have h1 : ∀ p ∈ resp.players, p.is_local = true → 1 ≤ p.port := fun p hp _ => h p hp
        rcases hfp : firstPass ⟨defaultExternalIp, 0, []⟩ resp.players with e | st
        · cases e
          · simp [check_ticket, hk, herr, buildContext, hfp]
          · exact absurd hfp (firstPass_no_underflow resp.players _ h1)
        · rcases hsp : secondPass st.local_player_index st.local_external_ip.ip resp.players
            with e | addrs
          · cases e
            · simp [check_ticket, hk, herr, buildContext, hfp, hsp]
            · exact absurd hsp (secondPass_no_underflow _ _ resp.players h)
          · simp [check_ticket, hk, herr, buildContext, hfp, hsp]
      · simp [check_ticket, hk, herr]
    · simp [check_ticket, hk]
  · exact ⟨_, rfl, by decide⟩

/-- C10: `remote_player_count` returns 0 when no match context is stored
and otherwise computes `players.len() - 1` with an unchecked `usize`
subtraction: total exactly when the stored player list is non-empty, and
the default `MatchContext` the worker's exit path stores when it leaves its
loop without an assignment drives it into the underflow branch. -/
theorem C10_remote_player_count_underflow :
    remote_player_count none = .val 0 ∧
    (∀ ctx : MatchContext, ctx.players ≠ [] →
      remote_player_count (some ctx) = .val (ctx.players.length - 1)) ∧
    (∀ ctx : MatchContext, ctx.players = [] →
      remote_player_count (some ctx) = .underflow) ∧
    (∀ (g : Nat) (store : Store) (host : Bool),
      (store g).context = none →
      ((runExitPath g store host MatchContext.default).store g).context =
        some MatchContext.default ∧
      remote_player_count
          (((runExitPath g store host MatchContext.default).store g).context) =
        .underflow) := by
  refine ⟨rfl, ?_, ?_, ?_⟩
  · intro ctx h
    have hlen : ctx.players.length ≠ 0 := by
      simpa [List.length_eq_zero] using h
    simp [remote_player_count, hlen]
  · intro ctx h
    simp [remote_player_count, h]
  · intro g store host h
    constructor
    · simp [runExitPath, storeSetContext, OnceValue.set, h]
    · simp [runExitPath, storeSetContext, OnceValue.set, h, remote_player_count,
        MatchContext.default]

/-- C4: a poll whose transport receive times out returns `Ok(None)`, and
the worker iteration leaves the state cell at `Matchmaking` with the error
cell untouched; a poll whose decoded response carries a populated server
error field makes the iteration return early with the state cell at
`ErrorEncountered` and exactly that one error string in the write-once
error cell, every other generation untouched; a second write to a
write-once cell is discarded, not fatal. -/
theorem C4_poll_timeout_and_server_error :
    (check_ticket (.error .Timeout) = ⟨.ok none, none⟩) ∧
    (∀ (g : Nat) (step : EnvStep) (store : Store) (ctx : MatchContext),
      step.external = none → (store g).state = .Matchmaking →
      step.check = .error .Timeout →
      runIteration g step store true ctx = .cont store true ctx) ∧
    (∀ (g : Nat) (step : EnvStep) (store : Store) (ctx : MatchContext)
        (resp : TicketResponse) (msg : String),
      step.external = none → (store g).state = .Matchmaking →
      step.check = .ok resp → resp.kind = GET_TICKET_RESP → resp.error = some msg →
      runIteration g step store true ctx =
        .returned (storeSetState (storeSetError store g msg) g .ErrorEncountered) ∧
      ((storeSetState (storeSetError store g msg) g .ErrorEncountered) g).state =
        .ErrorEncountered ∧
      ((store g).error = none →
        ((storeSetState (storeSetError store g msg) g .ErrorEncountered) g).error =
          some msg) ∧
      (∀ g2, g2 ≠ g →
        (storeSetState (storeSetError store g msg) g .ErrorEncountered) g2 = store g2)) ∧
    (∀ a b : String, OnceValue.set (some a) b = some a) := by
  refine ⟨rfl, ?_, ?_, ?_⟩
  · intro g step store ctx hext hstate hcheck
    simp [runIteration, applyExternal, hext, hstate, hcheck, check_ticket]
  · intro g step store ctx resp msg hext hstate hcheck hkind herr
    have hct : (check_ticket step.check).outcome = .err (.Server msg) := by
      simp [hcheck, check_ticket, hkind, herr]
    refine ⟨?_, ?_, ?_, ?_⟩
    · simp [runIteration, applyExternal, hext, hstate, hct, matchmakeErrorMessage]
    · simp [storeSetState, storeSetError]
    · intro h
      simp [storeSetState, storeSetError, OnceValue.set, h]
    · intro g2 hg2
      simp [storeSetState, storeSetError, hg2]
  · intro a b
    rfl

/-- C3: `find_match` forces the prior generation's state cell to `Idle` and
switches to a freshly allocated generation; a worker that then re-reads its
own state cell and finds it no longer matching its expectation (`Idle`
here) breaks out of its loop, performs transport teardown exactly when it
holds a transport, advances the state machine no further, writes nothing to
its error cell, stores only the handoff context into its own generation's
write-once cell, and leaves every other generation's cells - in particular
the new generation's - untouched. -/
theorem C3_superseded_worker_exit (mgr : Manager) (store : Store) (env : Nat → EnvStep)
    (fuel iter : Nat) (host : Bool) (ctx : MatchContext)
    (hext : (env iter).external = none) :
    (find_match mgr store).1.gen = mgr.gen + 1 ∧
    ((find_match mgr store).2 mgr.gen).state = .Idle ∧
    (find_match mgr store).2 (mgr.gen + 1) = Cells.fresh ∧
    (runLoop mgr.gen env (fuel + 1) iter ((find_match mgr store).2) host ctx).exit =
      .finishedBreak ∧
    (runLoop mgr.gen env (fuel + 1) iter ((find_match mgr store).2) host ctx).teardown =
      host ∧
    ((runLoop mgr.gen env (fuel + 1) iter ((find_match mgr store).2) host ctx).store
        mgr.gen).state = .Idle ∧
    ((runLoop mgr.gen env (fuel + 1) iter ((find_match mgr store).2) host ctx).store
        mgr.gen).error = (store mgr.gen).error ∧
    ((runLoop mgr.gen env (fuel + 1) iter ((find_match mgr store).2) host ctx).store
        mgr.gen).context = OnceValue.set ((store mgr.gen).context) ctx ∧
    (∀ g2, g2 ≠ mgr.gen →
      (runLoop mgr.gen env (fuel + 1) iter ((find_match mgr store).2) host ctx).store g2 =
        (find_match mgr store).2 g2) := by
  have hgne : ¬(mgr.gen = mgr.gen + 1) := by omega
  have hcell : (find_match mgr store).2 mgr.gen =
      { store mgr.gen with state := .Idle } := by
    simp [find_match, storeSetState, hgne]
  have hstate : ((find_match mgr store).2 mgr.gen).state = .Idle := by
    rw [hcell]
  have hiter : runIteration mgr.gen (env iter) ((find_match mgr store).2) host ctx =
      .exited ((find_match mgr store).2) host ctx := by
    simp [runIteration, applyExternal, hext, hstate]
  have hloop : runLoop mgr.gen env (fuel + 1) iter ((find_match mgr store).2) host ctx =
      runExitPath mgr.gen ((find_match mgr store).2) host ctx := by
    simp [runLoop, hiter]
  refine ⟨rfl, hstate, by simp [find_match], ?_, ?_, ?_, ?_, ?_, ?_⟩
  · rw [hloop]
    rfl
  · rw [hloop]
    rfl
  · rw [hloop]
    simp [runExitPath, storeSetContext, hcell]
  · rw [hloop]
    simp [runExitPath, storeSetContext, hcell]
  · rw [hloop]
    simp [runExitPath, storeSetContext, hcell]
  · intro g2 hg2
    rw [hloop]
    simp [runExitPath, storeSetContext, hg2]

/-- Witness for C3: a generation-0 worker at `Matchmaking`, superseded by a
`find_match` that allocates generation 1, observes the forced `Idle`,
tears its transport down and leaves generation 1's fresh cells untouched. -/
theorem C3_superseded_worker_exit_witness :
    (find_match ⟨0⟩ wStoreMM).1.gen = 0 + 1 ∧
    ((find_match ⟨0⟩ wStoreMM).2 0).state = .Idle ∧
    (find_match ⟨0⟩ wStoreMM).2 (0 + 1) = Cells.fresh ∧
    (runLoop 0 wEnvTimeout (0 + 1) 0 ((find_match ⟨0⟩ wStoreMM).2) true
      MatchContext.default).exit = .finishedBreak ∧
    (runLoop 0 wEnvTimeout (0 + 1) 0 ((find_match ⟨0⟩ wStoreMM).2) true
      MatchContext.default).teardown = true ∧
    ((runLoop 0 wEnvTimeout (0 + 1) 0 ((find_match ⟨0⟩ wStoreMM).2) true
      MatchContext.default).store 0).state = .Idle ∧
    ((runLoop 0 wEnvTimeout (0 + 1) 0 ((find_match ⟨0⟩ wStoreMM).2) true
      MatchContext.default).store 0).error = (wStoreMM 0).error ∧
    ((runLoop 0 wEnvTimeout (0 + 1) 0 ((find_match ⟨0⟩ wStoreMM).2) true
      MatchContext.default).store 0).context =
      OnceValue.set ((wStoreMM 0).context) MatchContext.default ∧
    (∀ g2, g2 ≠ 0 →
      (runLoop 0 wEnvTimeout (0 + 1) 0 ((find_match ⟨0⟩ wStoreMM).2) true
        MatchContext.default).store g2 = (find_match ⟨0⟩ wStoreMM).2 g2) :=
  C3_superseded_worker_exit ⟨0⟩ wStoreMM wEnvTimeout 0 0 true MatchContext.default rfl

/-- C7: `receive` polls the host in fixed 250 ms slices, at least one even
when the requested timeout is smaller than 250; a disconnect event
short-circuits with `Disconnect`; exhausting every slice without a message
event yields `Timeout`; a message event's payload is decoded as UTF-8 and
then as the expected type, failures surfacing as `Utf8Read` and
`Deserialize` respectively. -/
theorem C7_receive_slicing :
    (∀ t : Int, 1 ≤ maxAttempts t) ∧
    (∀ t : Int, t ≤ 250 → maxAttempts t = 1) ∧
    (∀ (T : Type) (service : Nat → Except Unit (Option Event))
        (utf8 : List Nat → Option String) (deser : String → Option T) (t : Int),
      (∀ k, k < maxAttempts t → quietAt service k) →
      receive service utf8 deser t = .error .Timeout) ∧
    (∀ (T : Type) (service : Nat → Except Unit (Option Event))
        (utf8 : List Nat → Option String) (deser : String → Option T)
        (t : Int) (j : Nat),
      j < maxAttempts t → (∀ k, k < j → quietAt service k) →
      service j = .ok (some .Disconnect) →
      receive service utf8 deser t = .error .Disconnect) ∧
    (∀ (T : Type) (service : Nat → Except Unit (Option Event))
        (utf8 : List Nat → Option String) (deser : String → Option T)
        (t : Int) (j : Nat) (d : List Nat),
      j < maxAttempts t → (∀ k, k < j → quietAt service k) →
      service j = .ok (some (.Receive d)) →
      ((utf8 d = none → receive service utf8 deser t = .error .Utf8Read) ∧
       (∀ s, utf8 d = some s → deser s = none →
         receive service utf8 deser t = .error .Deserialize) ∧
       (∀ s v, utf8 d = some s → deser s = some v →
         receive service utf8 deser t = .ok v))) := by
  refine ⟨?_, ?_, ?_, ?_, ?_⟩
  · intro t
    simp only [maxAttempts]
    by_cases h1 : t < 250
    · rw [if_pos h1]
      decide
    · rw [if_neg h1]
      exact (Nat.le_div_iff_mul_le (by norm_num)).mpr (by omega)
  · intro t h
    simp only [maxAttempts]
    by_cases h1 : t < 250
    · rw [if_pos h1]
      decide
    · have ht : t = 250 := by omega
      subst ht
      decide
  · intro T service utf8 deser t h
    exact receiveLoop_timeout service utf8 deser (maxAttempts t) 0
      (fun k _ hk2 => h k (by omega))
  · intro T service utf8 deser t j hj hq hd
    exact receiveLoop_disconnect service utf8 deser (maxAttempts t) 0 j (by omega)
      (by omega) (fun k _ hk2 => hq k hk2) hd
  · intro T service utf8 deser t j d hj hq hd
    have hm : receive service utf8 deser t =
        (match utf8 d with
          | none => .error .Utf8Read
          | some s =>
            match deser s with
            | none => .error .Deserialize
            | some v => .ok v) :=
      receiveLoop_message service utf8 deser d (maxAttempts t) 0 j (by omega)
        (by omega) (fun k _ hk2 => hq k hk2) hd
    refine ⟨?_, ?_, ?_⟩
    · intro hu
      rw [hm, hu]
    · intro s hu hds
      rw [hm, hu]
      simp [hds]
    · intro s v hu hds
      rw [hm, hu]
      simp [hds]

end Slippi
